import Mathlib

/-!
Shallow embedding of the hardware-resource and HBlank-effect layer of the
Butano GBA engine, used to check the specification claims against the code.

Pure fragments of the C++ sources are translated into executable Lean
definitions; external collaborators (the display manager, the backgrounds
manager, the HBlank effects manager, the hardware palette routines) appear as
explicit function parameters, and fatal assertions are modelled as `Option`
results where `none` stands for the assertion firing.
-/

set_option autoImplicit false

namespace Butano

/-! ### Sprite palette color HBlank effect pointer
(btn_sprite_palette_hblank_effects.cpp) -/

/-- A sprite palette handle as seen by the HBlank effect entry points: its id
and its colors count are the only fields those entry points read. -/
structure SpritePalettePtr where
  id : Int
  colorsCount : Int
deriving DecidableEq, Repr

/-- The value produced by the `sprite_palette_color_hblank_effect_ptr`
constructors: the manager slot id plus the color index inside the palette. -/
structure SpritePaletteColorHbePtr where
  id : Int
  colorIndex : Int
deriving DecidableEq, Repr

/-- `sprite_palette_color_hblank_effect_ptr::create`: asserts that the color
index is inside the palette, then builds the pointer from the manager slot id
(`hblank_effects_manager::create`, an external collaborator, passed as
`managerId`). `none` models the fatal assertion on the color index; there is no
failure value for the slot id. -/
def sprite_palette_color_hbe_create (palette : SpritePalettePtr) (colorIndex : Int)
    (managerId : Int) : Option SpritePaletteColorHbePtr :=
  if 0 ≤ colorIndex ∧ colorIndex < palette.colorsCount then
    some ⟨managerId, colorIndex⟩
  else
    none

/-- `sprite_palette_color_hblank_effect_ptr::optional_create`: same assertion
on the color index, then the result is constructed only when the manager
returned a non-negative slot id (`hblank_effects_manager::optional_create`,
external, passed as `managerId`). The outer `none` models the fatal assertion;
the inner `none` is the empty optional handed to the caller. -/
def sprite_palette_color_hbe_optional_create (palette : SpritePalettePtr) (colorIndex : Int)
    (managerId : Int) : Option (Option SpritePaletteColorHbePtr) :=
  if 0 ≤ colorIndex ∧ colorIndex < palette.colorsCount then
    some (if 0 ≤ managerId then some ⟨managerId, colorIndex⟩ else none)
  else
    none

/-- C2: under a valid color index, `optional_create` hands the caller an empty
optional exactly when the effect-slot manager reported exhaustion with a
negative slot id — the failure is reported synchronously to the immediate
caller — while `create` has no failure value: it returns a pointer for every
manager id. -/
theorem optional_create_empty_iff_manager_failed
    (palette : SpritePalettePtr) (colorIndex managerId : Int)
    (hv : 0 ≤ colorIndex ∧ colorIndex < palette.colorsCount) :
    (sprite_palette_color_hbe_optional_create palette colorIndex managerId = some none ↔
      managerId < 0) ∧
    ∃ p, sprite_palette_color_hbe_create palette colorIndex managerId = some p := by
  refine ⟨?_, ⟨⟨managerId, colorIndex⟩, by simp [sprite_palette_color_hbe_create, hv]⟩⟩
  by_cases h : (0 : Int) ≤ managerId <;>
    simp [sprite_palette_color_hbe_optional_create, hv, h]
  all_goals omega

/-- Witness for C2 at a 16-color palette, color index 3 and a failed manager
allocation (slot id -1). -/
theorem optional_create_empty_iff_manager_failed_witness :
    (sprite_palette_color_hbe_optional_create ⟨0, 16⟩ 3 (-1) = some none ↔ (-1 : Int) < 0) ∧
    ∃ p, sprite_palette_color_hbe_create ⟨0, 16⟩ 3 (-1) = some p :=
  optional_create_empty_iff_manager_failed ⟨0, 16⟩ 3 (-1) (by decide)

/-- C7: both creation entry points raise the fatal assertion exactly when the
requested color index lies outside the palette (negative, or at least the
colors count); inside the range the assertion branch is unreachable and no
failure is reported for the index. -/
theorem create_asserts_iff_color_index_out_of_range
    (palette : SpritePalettePtr) (colorIndex managerId : Int) :
    (sprite_palette_color_hbe_create palette colorIndex managerId = none ↔
      (colorIndex < 0 ∨ palette.colorsCount ≤ colorIndex)) ∧
    (sprite_palette_color_hbe_optional_create palette colorIndex managerId = none ↔
      (colorIndex < 0 ∨ palette.colorsCount ≤ colorIndex)) := by
  constructor <;>
    [unfold sprite_palette_color_hbe_create;
     unfold sprite_palette_color_hbe_optional_create] <;>
    split <;> rename_i h <;> simp <;> omega

/-! ### Rect window horizontal boundaries handler
(bn_rect_window_horizontal_boundaries_hbe_handler.h) -/

/-- `rect_window_horizontal_boundaries_hbe_handler::target_updated`: reads the
window's current hardware horizontal boundaries
(`display_manager::rect_window_hw_horizontal_boundaries`, external, passed as
`hwBoundaries`), compares them with the cached pair, overwrites the cache with
the current pair and reports whether they differed. -/
def rect_window_horizontal_boundaries_target_updated (hwBoundaries : Int → Int × Int)
    (targetId : Int) (lastValue : Int × Int) : Bool × (Int × Int) :=
  let newValue := hwBoundaries targetId
  (decide (lastValue ≠ newValue), newValue)

/-- C4: the rect-window horizontal boundaries handler reports an update exactly
when the current hardware boundaries differ from the cached pair, the cache
equals the current boundaries afterwards, and a second call with an unchanged
target therefore reports no update. -/
theorem rect_window_target_updated_iff_changed (hwBoundaries : Int → Int × Int)
    (targetId : Int) (lastValue : Int × Int) :
    ((rect_window_horizontal_boundaries_target_updated hwBoundaries targetId lastValue).1 = true ↔
      hwBoundaries targetId ≠ lastValue) ∧
    (rect_window_horizontal_boundaries_target_updated hwBoundaries targetId lastValue).2 =
      hwBoundaries targetId ∧
    (rect_window_horizontal_boundaries_target_updated hwBoundaries targetId
      (rect_window_horizontal_boundaries_target_updated hwBoundaries targetId lastValue).2).1 =
      false := by
  refine ⟨?_, rfl, ?_⟩
  · simp [rect_window_horizontal_boundaries_target_updated]
    exact ne_comm
  · simp [rect_window_horizontal_boundaries_target_updated]

/-! ### Target visibility of the handlers
(bn_regular_bg_attributes_hblank_effect_handler.h,
bn_rect_window_horizontal_boundaries_hbe_handler.h) -/

/-- `regular_bg_attributes_hblank_effect_handler::target_visible`: the target
is visible when `bgs_manager::hw_id` (external, passed as `hwId`) holds a value
for the target handle. -/
def regular_bg_attributes_target_visible (hwId : Int → Option Nat) (targetId : Int) : Bool :=
  (hwId targetId).isSome

/-- `rect_window_horizontal_boundaries_hbe_handler::target_visible`: constantly
true. -/
def rect_window_horizontal_boundaries_target_visible (_ : Int) : Bool :=
  true

/-- C5: the regular-background attributes handler reports its target visible
exactly when the background currently has a hardware id, and the rect-window
boundaries handler reports every target visible. -/
theorem target_visible_iff_hw_id (hwId : Int → Option Nat) (targetId : Int) :
    (regular_bg_attributes_target_visible hwId targetId = true ↔
      ∃ n, hwId targetId = some n) ∧
    rect_window_horizontal_boundaries_target_visible targetId = true := by
  refine ⟨?_, rfl⟩
  simp [regular_bg_attributes_target_visible, Option.isSome_iff_exists]

/-! ### Sprite palette color handler and the per-frame scheduler pass
(btn_sprite_palette_hblank_effects.cpp; spec §4.3, §4.4) -/

/-- `color_hblank_effect_handler::target_visible`
(btn_sprite_palette_hblank_effects.cpp): constantly true. -/
def color_hblank_effect_handler_target_visible (_ : Int) : Bool :=
  true

/-- `color_hblank_effect_handler::target_updated`
(btn_sprite_palette_hblank_effects.cpp): returns false and does not touch the
cached `iany` state (modelled by the opaque type `σ`). -/
def color_hblank_effect_handler_target_updated {σ : Type} (_ : Int) (state : σ) : Bool × σ :=
  (false, state)

/-- The part of the effect handler capability contract the per-frame gating
decision depends on (spec §4.3), with an opaque cached-state type `σ`. -/
structure EffectHandler (σ : Type) where
  targetVisible : Int → Bool
  targetUpdated : Int → σ → Bool × σ

/-- The sprite palette color handler packaged under the contract. -/
def color_hblank_effect_handler (σ : Type) : EffectHandler σ :=
  ⟨color_hblank_effect_handler_target_visible,
   fun targetId state => color_hblank_effect_handler_target_updated targetId state⟩

/-- Modelled from the spec: the once-per-frame pass of the HBlank effect
scheduler for one active slot (spec §4.4; the `hblank_effects_manager` update
loop is not among the sampled sources). If `target_visible` is false the slot
is skipped; otherwise `target_updated` runs, and `write_output_values` is
invoked exactly when it reported a change or the caller raised the reload flag.
Returns whether `write_output_values` was invoked this frame, together with the
new cached state. -/
def slot_frame {σ : Type} (handler : EffectHandler σ) (targetId : Int) (cache : σ)
    (reload : Bool) : Bool × σ :=
  if handler.targetVisible targetId then
    let r := handler.targetUpdated targetId cache
    (r.1 || reload, r.2)
  else
    (false, cache)

/-- C3: a slot whose handler reports no target change and whose input table got
no reload notification does not run `write_output_values` that frame; the
sprite palette color handler reports no change for every target and leaves the
cache untouched, so for it `write_output_values` runs exactly on reload
notifications (shown here for an arbitrary reload flag value). -/
theorem write_output_skipped_without_update_or_reload {σ : Type}
    (handler : EffectHandler σ) (targetId : Int) (cache : σ) (reload : Bool)
    (hupd : (handler.targetUpdated targetId cache).1 = false) :
    (slot_frame handler targetId cache false).1 = false ∧
    color_hblank_effect_handler_target_updated targetId cache = (false, cache) ∧
    (slot_frame (color_hblank_effect_handler σ) targetId cache reload).1 = reload := by
  refine ⟨?_, rfl, ?_⟩
  · unfold slot_frame
    split <;> simp [hupd]
  · simp [slot_frame, color_hblank_effect_handler,
      color_hblank_effect_handler_target_visible, color_hblank_effect_handler_target_updated]

/-- Witness for C3 at the color handler, target 0, cache 0 and a raised reload
flag. -/
theorem write_output_skipped_without_update_or_reload_witness :
    (slot_frame (color_hblank_effect_handler Nat) 0 0 false).1 = false ∧
    color_hblank_effect_handler_target_updated 0 (0 : Nat) = (false, 0) ∧
    (slot_frame (color_hblank_effect_handler Nat) 0 0 true).1 = true :=
  write_output_skipped_without_update_or_reload (color_hblank_effect_handler Nat) 0 0 true rfl

/-! ### Line table output of the color handler
(btn_sprite_palette_hblank_effects.cpp) -/

/-- Modelled from the spec: the display line count of this hardware class
(`display::height()`; the display header is not among the sampled sources, and
spec §3 fixes the height to the display line count, 160 for this class of
hardware). -/
def display_height : Nat := 160

/-- `color_hblank_effect_handler::write_output_values`: copies
`display::height()` values straight from the caller-owned input table to the
output table (`memory::copy(*input_values_ptr, display::height(),
*output_values_ptr)`). The input table is passed as the function
`inputValues`. -/
def color_hblank_effect_handler_write_output_values (inputValues : Nat → Int) : List Int :=
  (List.range display_height).map inputValues

/-- `sprite_palette_color_hblank_effect_ptr::colors_ref`: a span over the
values referenced by the manager (`hblank_effects_manager::values_ref`,
external, passed as `valuesPtr`) whose size is `display::height()`. -/
def sprite_palette_color_hbe_colors_ref (valuesPtr : Nat → Int) : List Int :=
  (List.range display_height).map valuesPtr

/-- C6: the color handler writes exactly one value per scanline — the output
table has `display_height` (160) entries and entry `i` equals input entry `i`
for every line index below the display height — and the exposed `colors_ref`
span has size equal to the display height. -/
theorem write_output_values_copies_each_line (inputValues : Nat → Int) (i : Nat)
    (hi : i < display_height) :
    (color_hblank_effect_handler_write_output_values inputValues).length = display_height ∧
    (color_hblank_effect_handler_write_output_values inputValues).get? i =
      some (inputValues i) ∧
    (sprite_palette_color_hbe_colors_ref inputValues).length = display_height := by
  refine ⟨by simp [color_hblank_effect_handler_write_output_values], ?_,
    by simp [sprite_palette_color_hbe_colors_ref]⟩
  simp only [color_hblank_effect_handler_write_output_values, List.get?_eq_getElem?,
    List.getElem?_map, List.getElem?_range hi]
  rfl

/-- Witness for C6 at the identity input table and line index 7. -/
theorem write_output_values_copies_each_line_witness :
    (color_hblank_effect_handler_write_output_values (fun n => (n : Int))).length =
      display_height ∧
    (color_hblank_effect_handler_write_output_values (fun n => (n : Int))).get? 7 =
      some ((7 : Nat) : Int) ∧
    (sprite_palette_color_hbe_colors_ref (fun n => (n : Int))).length = display_height :=
  write_output_values_copies_each_line (fun n => (n : Int)) 7 (by decide)

/-! ### Color effects (bn_color_effect.cpp)

Colors are 15-bit BGR values, kept abstract as integers; the hardware palette
routines (`hw::palettes::*`) are external collaborators, passed as whole-array
functions. The intensity argument reaches each function as the
5-fractional-bit fixed-point representation `fixed_t<5>(intensity).data()`
(the generic fixed-point library is an external collaborator), passed as
`value`. `none` models the fatal assertion on the colors count. -/

/-- `bn::color_effect::brightness` (in-place overload): asserts a non-empty
span, then applies `hw::palettes::brightness` only when `value` is non-zero. -/
def color_effect_brightness (hwBrightness : Int → List Int → List Int) (value : Int)
    (colors : List Int) : Option (List Int) :=
  if 0 < colors.length then
    some (if value ≠ 0 then hwBrightness value colors else colors)
  else
    none

/-- `bn::color_effect::contrast` (in-place overload): asserts a non-empty span,
then applies `hw::palettes::contrast` only when `value` is non-zero. -/
def color_effect_contrast (hwContrast : Int → List Int → List Int) (value : Int)
    (colors : List Int) : Option (List Int) :=
  if 0 < colors.length then
    some (if value ≠ 0 then hwContrast value colors else colors)
  else
    none

/-- `bn::color_effect::intensity` (in-place overload): asserts a non-empty
span, then applies `hw::palettes::intensity` only when `value` is non-zero. -/
def color_effect_intensity (hwIntensity : Int → List Int → List Int) (value : Int)
    (colors : List Int) : Option (List Int) :=
  if 0 < colors.length then
    some (if value ≠ 0 then hwIntensity value colors else colors)
  else
    none

/-- Modelled from the spec: the size of the hardware color palette memory in
colors (`hw::palettes::colors()`, whose header is not among the sampled
sources; the palette items hold at most 256 colors). -/
def hw_palettes_colors : Nat := 256

/-- `bn::color_effect::grayscale` (in-place overload): asserts a non-empty span
of at most `hw::palettes::colors()` entries, then applies
`hw::palettes::grayscale` only when `value` is non-zero. -/
def color_effect_grayscale (hwGrayscale : Int → List Int → List Int) (value : Int)
    (colors : List Int) : Option (List Int) :=
  if 0 < colors.length ∧ colors.length ≤ hw_palettes_colors then
    some (if value ≠ 0 then hwGrayscale value colors else colors)
  else
    none

/-- `bn::color_effect::hue_shift` (in-place overload): asserts a non-empty span
of at most `hw::palettes::colors()` entries, then applies
`hw::palettes::hue_shift` only when `value` is non-zero. -/
def color_effect_hue_shift (hwHueShift : Int → List Int → List Int) (value : Int)
    (colors : List Int) : Option (List Int) :=
  if 0 < colors.length ∧ colors.length ≤ hw_palettes_colors then
    some (if value ≠ 0 then hwHueShift value colors else colors)
  else
    none

/-- `bn::color_effect::fade` (in-place overload): asserts a non-empty span,
then applies `hw::palettes::fade` with the fade color only when `value` is
non-zero. -/
def color_effect_fade (hwFade : Int → Int → List Int → List Int) (fadeColor value : Int)
    (colors : List Int) : Option (List Int) :=
  if 0 < colors.length then
    some (if value ≠ 0 then hwFade fadeColor value colors else colors)
  else
    none

/-- C9: on every non-empty colors span (within the palette memory capacity for
the grayscale and hue-shift variants), an intensity whose 5-fractional-bit
fixed-point representation is zero makes brightness, contrast, intensity,
grayscale, hue shift and fade leave every color unchanged, whatever the
hardware routines would compute. -/
theorem zero_intensity_color_effects_identity
    (hwB hwC hwI hwG hwH : Int → List Int → List Int)
    (hwF : Int → Int → List Int → List Int) (fadeColor : Int) (colors : List Int)
    (hne : colors ≠ []) (hcap : colors.length ≤ hw_palettes_colors) :
    color_effect_brightness hwB 0 colors = some colors ∧
    color_effect_contrast hwC 0 colors = some colors ∧
    color_effect_intensity hwI 0 colors = some colors ∧
    color_effect_grayscale hwG 0 colors = some colors ∧
    color_effect_hue_shift hwH 0 colors = some colors ∧
    color_effect_fade hwF fadeColor 0 colors = some colors := by
  have hlen : 0 < colors.length := List.length_pos.mpr hne
  refine ⟨?_, ?_, ?_, ?_, ?_, ?_⟩ <;>
    simp [color_effect_brightness, color_effect_contrast, color_effect_intensity,
      color_effect_grayscale, color_effect_hue_shift, color_effect_fade, hlen, hcap]

/-- Witness for C9 at a three-color span and arbitrarily chosen hardware
routines that would change every color if they ran. -/
theorem zero_intensity_color_effects_identity_witness :
    color_effect_brightness (fun _ c => c.map (· + 1)) 0 [1, 2, 3] = some [1, 2, 3] ∧
    color_effect_contrast (fun _ c => c.map (· + 1)) 0 [1, 2, 3] = some [1, 2, 3] ∧
    color_effect_intensity (fun _ c => c.map (· + 1)) 0 [1, 2, 3] = some [1, 2, 3] ∧
    color_effect_grayscale (fun _ c => c.map (· + 1)) 0 [1, 2, 3] = some [1, 2, 3] ∧
    color_effect_hue_shift (fun _ c => c.map (· + 1)) 0 [1, 2, 3] = some [1, 2, 3] ∧
    color_effect_fade (fun _ _ c => c.map (· + 1)) 7 0 [1, 2, 3] = some [1, 2, 3] :=
  zero_intensity_color_effects_identity _ _ _ _ _ _ 7 [1, 2, 3] (by decide) (by decide)

/-! ### Sprite text generation (bn_sprite_text_generator.cpp) -/

/-- `ivector::shrink`: truncates the vector to its first `count` elements. -/
def ivector_shrink {α : Type} (v : List α) (count : Nat) : List α :=
  v.take count

/-- `_generate<allow_failure = true>` (bn_sprite_text_generator.cpp), the body
behind `sprite_text_generator::generate_optional`. Its collaborators are
abstracted: `paletteOk` tells whether `create_palette_optional` succeeded (on
failure `_generate` returns false before touching the vector), and the painter
run appends `painted` sprites to `output_sprites` (every painter mutates the
vector through `push_back` only) and reports `paintOk`. On entry the sprite
count is recorded; when the paint run fails the vector is shrunk back to that
count before returning false. -/
def generate_optional {α : Type} (paletteOk : Bool) (paintOk : Bool) (painted : List α)
    (outputSprites : List α) : Bool × List α :=
  if !paletteOk then
    (false, outputSprites)
  else
    let count := outputSprites.length
    let withPainted := outputSprites ++ painted
    if !paintOk then
      (false, ivector_shrink withPainted count)
    else
      (true, withPainted)

/-- C10: whenever `generate_optional` returns false, the output sprites vector
is restored to exactly the contents it had on entry — every sprite appended
during the failed attempt is removed before returning. -/
theorem generate_optional_failure_restores_output {α : Type}
    (paletteOk paintOk : Bool) (painted outputSprites : List α)
    (hfail : (generate_optional paletteOk paintOk painted outputSprites).1 = false) :
    (generate_optional paletteOk paintOk painted outputSprites).2 = outputSprites := by
  cases paletteOk <;> cases paintOk <;>
    simp_all [generate_optional, ivector_shrink, List.take_left]

/-- Witness for C10: a paint failure after two appended sprites leaves the
three entry sprites exactly as they were. -/
theorem generate_optional_failure_restores_output_witness :
    (generate_optional true false [9, 9] [1, 2, 3]).2 = [1, 2, 3] :=
  generate_optional_failure_restores_output true false [9, 9] [1, 2, 3] (by decide)

/-! ### Memory pool and resource handle registry (spec §4.1, §4.2)

The palette/tile registry implementation (`palettes_manager`,
`sprite_palette_ptr::create`, `affine_bg_tiles_ptr::create`) is not among the
sampled sources — only its declarations and callers are
(btn_sprite_palette_item.h, bn_affine_bg_tiles_item.cpp). The definitions in
this section are therefore modelled from the spec. -/

/-- Modelled from the spec: one memory block of a hardware bank (spec §3):
start offset, length and the in-use mark. -/
structure MemoryBlock where
  start : Nat
  length : Nat
  inUse : Bool
deriving DecidableEq, Repr

/-- Modelled from the spec: `allocate(length)` of the Memory Pool (spec §4.1):
finds the first free block with enough room, splits it on a larger match and
returns the offset of the front sub-block; fails (`none`) when no single free
block is large enough. -/
def pool_allocate (blocks : List MemoryBlock) (n : Nat) :
    Option (Nat × List MemoryBlock) :=
  match blocks with
  | [] => none
  | b :: rest =>
    if !b.inUse && n ≤ b.length then
      if n = b.length then
        some (b.start, ⟨b.start, b.length, true⟩ :: rest)
      else
        some (b.start, ⟨b.start, n, true⟩ :: ⟨b.start + n, b.length - n, false⟩ :: rest)
    else
      match pool_allocate rest n with
      | some (off, rest2) => some (off, b :: rest2)
      | none => none

/-- Modelled from the spec: the block-moving pass of `compact()` (spec §4.1):
in-use blocks are packed to the front in ascending address order starting at
offset `next`; returns the packed blocks, the relocation pairs (old offset, new
offset) and the first free offset after packing. -/
def pool_compact_go (blocks : List MemoryBlock) (next : Nat) :
    List MemoryBlock × List (Nat × Nat) × Nat :=
  match blocks with
  | [] => ([], [], next)
  | b :: rest =>
    if b.inUse then
      let r := pool_compact_go rest (next + b.length)
      (⟨next, b.length, true⟩ :: r.1, (b.start, next) :: r.2.1, r.2.2)
    else
      pool_compact_go rest next

/-- Modelled from the spec: `compact()` (spec §4.1): packs every in-use block
to the front of the bank, closing every internal gap into one trailing free
block; returns the new block list and the relocation pairs of the moved
blocks. -/
def pool_compact (blocks : List MemoryBlock) (bankSize : Nat) :
    List MemoryBlock × List (Nat × Nat) :=
  let r := pool_compact_go blocks 0
  if r.2.2 < bankSize then
    (r.1 ++ [⟨r.2.2, bankSize - r.2.2, false⟩], r.2.1)
  else
    (r.1, r.2.1)

/-- Modelled from the spec: one live handle of the Resource Handle Registry
(spec §3): the backing content bytes, the shared reference count and the start
offset inside the bank. -/
structure RegistryEntry where
  content : List Nat
  refCount : Nat
  start : Nat
deriving DecidableEq, Repr

/-- Modelled from the spec: the Resource Handle Registry over one Memory Pool
(spec §4.2): the pool blocks, the live entries and the bank size. -/
structure Registry where
  blocks : List MemoryBlock
  entries : List RegistryEntry
  bankSize : Nat
deriving DecidableEq, Repr

/-- A counted reference as seen by a caller: the memory range it denotes. -/
structure ResourceHandle where
  start : Nat
  length : Nat
deriving DecidableEq, Repr

/-- Modelled from the spec: the search step of `find` (spec §4.2): the first
entry whose backing content equals the requested content gets its reference
count incremented; returns that entry and the updated entry list. -/
def find_entry (entries : List RegistryEntry) (content : List Nat) :
    Option (RegistryEntry × List RegistryEntry) :=
  match entries with
  | [] => none
  | e :: rest =>
    if e.content = content then
      some (e, ⟨e.content, e.refCount + 1, e.start⟩ :: rest)
    else
      match find_entry rest content with
      | some (e2, rest2) => some (e2, e :: rest2)
      | none => none

/-- Modelled from the spec: `find(content_descriptor)` (spec §4.2): search for
an existing live handle whose backing bytes equal the requested content; on a
hit return a new reference (count + 1) to its memory range. -/
def registry_find (r : Registry) (content : List Nat) :
    Option (ResourceHandle × Registry) :=
  match find_entry r.entries content with
  | some (e, entries2) =>
    some (⟨e.start, e.content.length⟩, ⟨r.blocks, entries2, r.bankSize⟩)
  | none => none

/-- Modelled from the spec: the relocation callback lookup after `compact()`
(spec §4.1): maps an old start offset through the relocation pairs. -/
def relocate_offset (reloc : List (Nat × Nat)) (old : Nat) : Nat :=
  match reloc with
  | [] => old
  | p :: rest => if p.1 = old then p.2 else relocate_offset rest old

/-- Modelled from the spec: after `compact()` every existing handle has its
start offset updated to the new location through the relocation pairs
(spec §4.1); contents and reference counts are untouched. -/
def relocate_entries (entries : List RegistryEntry) (reloc : List (Nat × Nat)) :
    List RegistryEntry :=
  entries.map fun e => ⟨e.content, e.refCount, relocate_offset reloc e.start⟩

/-- Modelled from the spec: `create(content_descriptor)` (spec §4.2): `find`
first; on a miss allocate from the pool sized to the content, compacting and
retrying once when the allocation fails due to fragmentation, and register the
new handle with reference count 1. `none` models the fatal failure when the
pool cannot satisfy the request even after compaction. -/
def registry_create (r : Registry) (content : List Nat) :
    Option (ResourceHandle × Registry) :=
  match registry_find r content with
  | some hr => some hr
  | none =>
    match pool_allocate r.blocks content.length with
    | some (off, blocks2) =>
      some (⟨off, content.length⟩,
            ⟨blocks2, r.entries ++ [⟨content, 1, off⟩], r.bankSize⟩)
    | none =>
      match pool_allocate (pool_compact r.blocks r.bankSize).1 content.length with
      | some (off, blocks2) =>
        some (⟨off, content.length⟩,
              ⟨blocks2,
               relocate_entries r.entries (pool_compact r.blocks r.bankSize).2 ++
                 [⟨content, 1, off⟩],
               r.bankSize⟩)
      | none => none

/-- Modelled from the spec: `create_optional` (spec §4.2): same as `create`,
but on failure it returns an empty result and leaves the prior state
unchanged. -/
def registry_create_optional (r : Registry) (content : List Nat) :
    Option ResourceHandle × Registry :=
  match registry_create r content with
  | some (h, r2) => (some h, r2)
  | none => (none, r)

/-- Modelled from the spec: `sprite_palette_item::create_palette` /
`affine_bg_tiles_item::create_tiles` — find-or-create of the handle backing
the item content, through the registry (btn_sprite_palette_item.h,
bn_affine_bg_tiles_item.cpp delegate to the registry create). -/
def create_palette (r : Registry) (itemColors : List Nat) :
    Option (ResourceHandle × Registry) :=
  registry_create r itemColors

/-- Modelled from the spec: `sprite_palette_item::create_palette_optional` /
`affine_bg_tiles_item::create_tiles_optional` — same as `create_palette`, with
an empty result instead of the fatal failure (btn_sprite_palette_item.h). -/
def create_palette_optional (r : Registry) (itemColors : List Nat) :
    Option ResourceHandle × Registry :=
  registry_create_optional r itemColors

/-- The total reference count held by the live entries of a registry. -/
def ref_count_sum (entries : List RegistryEntry) : Nat :=
  (entries.map RegistryEntry.refCount).sum

theorem find_entry_cons_none (e0 : RegistryEntry) (rest : List RegistryEntry)
    (content : List Nat) (h : find_entry (e0 :: rest) content = none) :
    e0.content ≠ content ∧ find_entry rest content = none := by
  rw [find_entry] at h
  split at h
  · simp at h
  · next h0 =>
    refine ⟨h0, ?_⟩
    cases hrec : find_entry rest content with
    | none => rfl
    | some p =>
      obtain ⟨a, b⟩ := p
      rw [hrec] at h
      simp at h

theorem find_entry_length (entries : List RegistryEntry) (content : List Nat)
    (e : RegistryEntry) (entries2 : List RegistryEntry)
    (h : find_entry entries content = some (e, entries2)) :
    entries2.length = entries.length := by
  induction entries generalizing e entries2 with
  | nil => simp [find_entry] at h
  | cons e0 rest ih =>
    rw [find_entry] at h
    split at h
    · rw [Option.some.injEq, Prod.mk.injEq] at h
      obtain ⟨-, h2⟩ := h
      subst h2
      simp
    · cases hrec : find_entry rest content with
      | none => rw [hrec] at h; simp at h
      | some p =>
        obtain ⟨e2, rest2⟩ := p
        rw [hrec] at h
        rw [Option.some.injEq, Prod.mk.injEq] at h
        obtain ⟨-, h2⟩ := h
        subst h2
        simp [ih e2 rest2 hrec]

theorem find_entry_content (entries : List RegistryEntry) (content : List Nat)
    (e : RegistryEntry) (entries2 : List RegistryEntry)
    (h : find_entry entries content = some (e, entries2)) :
    e.content = content := by
  induction entries generalizing e entries2 with
  | nil => simp [find_entry] at h
  | cons e0 rest ih =>
    rw [find_entry] at h
    split at h
    · next h0 =>
      rw [Option.some.injEq, Prod.mk.injEq] at h
      obtain ⟨h1, -⟩ := h
      subst h1
      exact h0
    · cases hrec : find_entry rest content with
      | none => rw [hrec] at h; simp at h
      | some p =>
        obtain ⟨e2, rest2⟩ := p
        rw [hrec] at h
        rw [Option.some.injEq, Prod.mk.injEq] at h
        obtain ⟨h1, -⟩ := h
        subst h1
        exact ih e2 rest2 hrec

theorem find_entry_mem (entries : List RegistryEntry) (content : List Nat)
    (e : RegistryEntry) (entries2 : List RegistryEntry)
    (h : find_entry entries content = some (e, entries2)) :
    e ∈ entries := by
  induction entries generalizing e entries2 with
  | nil => simp [find_entry] at h
  | cons e0 rest ih =>
    rw [find_entry] at h
    split at h
    · rw [Option.some.injEq, Prod.mk.injEq] at h
      obtain ⟨h1, -⟩ := h
      subst h1
      exact List.mem_cons_self e0 rest
    · cases hrec : find_entry rest content with
      | none => rw [hrec] at h; simp at h
      | some p =>
        obtain ⟨e2, rest2⟩ := p
        rw [hrec] at h
        rw [Option.some.injEq, Prod.mk.injEq] at h
        obtain ⟨h1, -⟩ := h
        subst h1
        exact List.mem_cons_of_mem e0 (ih e2 rest2 hrec)

theorem find_entry_ref_count_sum (entries : List RegistryEntry) (content : List Nat)
    (e : RegistryEntry) (entries2 : List RegistryEntry)
    (h : find_entry entries content = some (e, entries2)) :
    ref_count_sum entries2 = ref_count_sum entries + 1 := by
  induction entries generalizing e entries2 with
  | nil => simp [find_entry] at h
  | cons e0 rest ih =>
    rw [find_entry] at h
    split at h
    · rw [Option.some.injEq, Prod.mk.injEq] at h
      obtain ⟨-, h2⟩ := h
      subst h2
      simp [ref_count_sum]
      omega
    · cases hrec : find_entry rest content with
      | none => rw [hrec] at h; simp at h
      | some p =>
        obtain ⟨e2, rest2⟩ := p
        rw [hrec] at h
        rw [Option.some.injEq, Prod.mk.injEq] at h
        obtain ⟨-, h2⟩ := h
        subst h2
        simp [ref_count_sum] at ih ⊢
        simp [ih e2 rest2 hrec]
        omega

theorem find_entry_again (entries : List RegistryEntry) (content : List Nat)
    (e : RegistryEntry) (entries2 : List RegistryEntry)
    (h : find_entry entries content = some (e, entries2)) :
    ∃ e2 entries3, find_entry entries2 content = some (e2, entries3) ∧
      e2.start = e.start ∧ e2.content = e.content := by
  induction entries generalizing e entries2 with
  | nil => simp [find_entry] at h
  | cons e0 rest ih =>
    rw [find_entry] at h
    split at h
    · next h0 =>
      rw [Option.some.injEq, Prod.mk.injEq] at h
      obtain ⟨h1, h2⟩ := h
      subst h1
      subst h2
      refine ⟨⟨e0.content, e0.refCount + 1, e0.start⟩,
        ⟨e0.content, e0.refCount + 1 + 1, e0.start⟩ :: rest, ?_, rfl, rfl⟩
      rw [find_entry]
      simp [h0]
    · next h0 =>
      cases hrec : find_entry rest content with
      | none => rw [hrec] at h; simp at h
      | some p =>
        obtain ⟨e2', rest2⟩ := p
        rw [hrec] at h
        rw [Option.some.injEq, Prod.mk.injEq] at h
        obtain ⟨h1, h2⟩ := h
        subst h1
        subst h2
        obtain ⟨e2, es3, hf, hs, hcont⟩ := ih e2' rest2 hrec
        refine ⟨e2, e0 :: es3, ?_, hs, hcont⟩
        rw [find_entry]
        simp [h0, hf]

theorem find_entry_append_of_none (entries : List RegistryEntry) (content : List Nat)
    (off rc : Nat) (h : find_entry entries content = none) :
    find_entry (entries ++ [⟨content, rc, off⟩]) content =
      some (⟨content, rc, off⟩, entries ++ [⟨content, rc + 1, off⟩]) := by
  induction entries with
  | nil => simp [find_entry]
  | cons e0 rest ih =>
    obtain ⟨h0, hrest⟩ := find_entry_cons_none e0 rest content h
    rw [List.cons_append, find_entry]
    simp [h0, ih hrest]

theorem find_entry_relocate_none (entries : List RegistryEntry) (content : List Nat)
    (reloc : List (Nat × Nat)) (h : find_entry entries content = none) :
    find_entry (relocate_entries entries reloc) content = none := by
  induction entries with
  | nil => simp [relocate_entries, find_entry]
  | cons e0 rest ih =>
    obtain ⟨h0, hrest⟩ := find_entry_cons_none e0 rest content h
    rw [relocate_entries, List.map_cons, find_entry]
    have ih2 := ih hrest
    rw [relocate_entries] at ih2
    simp [h0, ih2]

theorem registry_create_finds_entry (r : Registry) (content : List Nat)
    (h1 : ResourceHandle) (r1 : Registry)
    (hc : registry_create r content = some (h1, r1)) :
    h1.length = content.length ∧
    ∃ e entries2, find_entry r1.entries content = some (e, entries2) ∧
      e.start = h1.start ∧ e.content = content := by
  unfold registry_create registry_find at hc
  cases hfind : find_entry r.entries content with
  | some p =>
    obtain ⟨e, es2⟩ := p
    rw [hfind] at hc
    simp only [Option.some.injEq, Prod.mk.injEq] at hc
    obtain ⟨hh, hr⟩ := hc
    subst hh
    subst hr
    have hcont := find_entry_content r.entries content e es2 hfind
    obtain ⟨e2, es3, hf2, hs2, hc2⟩ := find_entry_again r.entries content e es2 hfind
    exact ⟨by simp [hcont], e2, es3, hf2, hs2, by rw [hc2, hcont]⟩
  | none =>
    rw [hfind] at hc
    cases halloc : pool_allocate r.blocks content.length with
    | some q =>
      obtain ⟨off, blocks2⟩ := q
      rw [halloc] at hc
      simp only [Option.some.injEq, Prod.mk.injEq] at hc
      obtain ⟨hh, hr⟩ := hc
      subst hh
      subst hr
      exact ⟨rfl, ⟨content, 1, off⟩, _,
        find_entry_append_of_none r.entries content off 1 hfind, rfl, rfl⟩
    | none =>
      rw [halloc] at hc
      cases halloc2 :
          pool_allocate (pool_compact r.blocks r.bankSize).1 content.length with
      | some q =>
        obtain ⟨off, blocks2⟩ := q
        rw [halloc2] at hc
        simp only [Option.some.injEq, Prod.mk.injEq] at hc
        obtain ⟨hh, hr⟩ := hc
        subst hh
        subst hr
        have hrel := find_entry_relocate_none r.entries content
          (pool_compact r.blocks r.bankSize).2 hfind
        exact ⟨rfl, ⟨content, 1, off⟩, _,
          find_entry_append_of_none _ content off 1 hrel, rfl, rfl⟩
      | none =>
        rw [halloc2] at hc
        simp at hc

/-- C1: after any successful create call, a second create call with
byte-identical content hits the registry search: it returns a handle denoting
the same memory range, the pool blocks and the number of live entries are
unchanged — so no fresh allocation happens — and only the shared reference
count grows by one. -/
theorem create_identical_content_returns_same_range (r : Registry) (content : List Nat)
    (h1 : ResourceHandle) (r1 : Registry)
    (hc : create_palette r content = some (h1, r1)) :
    ∃ h2 r2, create_palette r1 content = some (h2, r2) ∧
      h2.start = h1.start ∧ h2.length = h1.length ∧
      r2.blocks = r1.blocks ∧ r2.entries.length = r1.entries.length ∧
      ref_count_sum r2.entries = ref_count_sum r1.entries + 1 := by
  obtain ⟨hlen, e, es2, hfind, hstart, hcont⟩ :=
    registry_create_finds_entry r content h1 r1 hc
  refine ⟨⟨e.start, e.content.length⟩, ⟨r1.blocks, es2, r1.bankSize⟩, ?_, hstart, ?_,
    rfl, ?_, ?_⟩
  · unfold create_palette registry_create registry_find
    rw [hfind]
  · rw [hcont]
    exact hlen.symm
  · exact find_entry_length r1.entries content e es2 hfind
  · exact find_entry_ref_count_sum r1.entries content e es2 hfind

/-- Witness for C1: a 64-byte empty bank, a 2-byte content; the first create
allocates at offset 0 and the second create shares that range. -/
theorem create_identical_content_returns_same_range_witness :
    ∃ h2 r2,
      create_palette ⟨[⟨0, 2, true⟩, ⟨2, 62, false⟩], [⟨[1, 2], 1, 0⟩], 64⟩ [1, 2] =
        some (h2, r2) ∧
      h2.start = (⟨0, 2⟩ : ResourceHandle).start ∧
      h2.length = (⟨0, 2⟩ : ResourceHandle).length ∧
      r2.blocks = (⟨[⟨0, 2, true⟩, ⟨2, 62, false⟩], [⟨[1, 2], 1, 0⟩], 64⟩ : Registry).blocks ∧
      r2.entries.length =
        (⟨[⟨0, 2, true⟩, ⟨2, 62, false⟩], [⟨[1, 2], 1, 0⟩], 64⟩ : Registry).entries.length ∧
      ref_count_sum r2.entries =
        ref_count_sum
          (⟨[⟨0, 2, true⟩, ⟨2, 62, false⟩], [⟨[1, 2], 1, 0⟩], 64⟩ : Registry).entries + 1 :=
  create_identical_content_returns_same_range ⟨[⟨0, 64, false⟩], [], 64⟩ [1, 2]
    ⟨0, 2⟩ ⟨[⟨0, 2, true⟩, ⟨2, 62, false⟩], [⟨[1, 2], 1, 0⟩], 64⟩ (by decide)

/-- C8: `create_palette_optional` behaves like `create_palette` except on
allocation failure: there it returns the empty result and leaves the prior
registry and pool state unchanged, while on success it returns the same handle
and the same new state as `create_palette`, and the registry then holds a live
entry carrying the item colors at the handle range. -/
theorem create_palette_optional_like_create (r : Registry) (colors : List Nat) :
    (create_palette r colors = none → create_palette_optional r colors = (none, r)) ∧
    (∀ h r2, create_palette r colors = some (h, r2) →
      create_palette_optional r colors = (some h, r2) ∧
      ∃ e, e ∈ r2.entries ∧ e.content = colors ∧ e.start = h.start) := by
  constructor
  · intro hnone
    unfold create_palette at hnone
    unfold create_palette_optional registry_create_optional
    rw [hnone]
  · intro h r2 hsome
    have hsome2 := hsome
    unfold create_palette at hsome2
    have hopt : create_palette_optional r colors = (some h, r2) := by
      unfold create_palette_optional registry_create_optional
      rw [hsome2]
    obtain ⟨-, e, es2, hfind, hstart, hcont⟩ :=
      registry_create_finds_entry r colors h r2 hsome2
    exact ⟨hopt, e, find_entry_mem r2.entries colors e es2 hfind, hcont, hstart⟩

/-- Witness for C8: a fully used 4-byte bank makes the optional create return
empty with the registry untouched, while an empty 4-byte bank makes it return
the same freshly created handle as the plain create. -/
theorem create_palette_optional_like_create_witness :
    create_palette_optional ⟨[⟨0, 4, true⟩], [], 4⟩ [1, 2] =
      (none, ⟨[⟨0, 4, true⟩], [], 4⟩) ∧
    (create_palette_optional ⟨[⟨0, 4, false⟩], [], 4⟩ [1, 2] =
      (some ⟨0, 2⟩, ⟨[⟨0, 2, true⟩, ⟨2, 2, false⟩], [⟨[1, 2], 1, 0⟩], 4⟩) ∧
      ∃ e,
        e ∈ (⟨[⟨0, 2, true⟩, ⟨2, 2, false⟩], [⟨[1, 2], 1, 0⟩], 4⟩ : Registry).entries ∧
        e.content = [1, 2] ∧ e.start = (⟨0, 2⟩ : ResourceHandle).start) :=
  ⟨(create_palette_optional_like_create ⟨[⟨0, 4, true⟩], [], 4⟩ [1, 2]).1 (by decide),
   (create_palette_optional_like_create ⟨[⟨0, 4, false⟩], [], 4⟩ [1, 2]).2
     ⟨0, 2⟩ ⟨[⟨0, 2, true⟩, ⟨2, 2, false⟩], [⟨[1, 2], 1, 0⟩], 4⟩ (by decide)⟩

end Butano
